import Mathlib

/-!
Shallow embedding of `compress_images.py`, a batch image-compression CLI.

The filesystem is modelled as a partial map from path strings to byte lists.
The external image library (PIL) is modelled by an abstract `Codec` record:
decoding may fail (`Option`), encoders are arbitrary functions from the
in-memory artifact (mode and pixel dimensions) to byte lists.  A write-fault
oracle `writeOk` models `img.save` raising an I/O exception at a given path;
all other modelled exception sources are decode failure and a missing input
file.  Python's float target size `max_size_mb * 1024 * 1024` is modelled
exactly with rationals (the program only multiplies and compares, which is
exact for floats of this magnitude in the source's intended range).
-/

/-- File contents: a list of bytes. Only the length (file size) matters to the
program's control flow. -/
abbrev Bytes : Type := List Nat

/-- The filesystem: maps a path to the bytes stored there, `none` if absent. -/
abbrev FS : Type := String → Option Bytes

/-- Write (create or overwrite) a file. -/
def setFile (fs : FS) (p : String) (b : Bytes) : FS :=
  fun q => if q = p then some b else fs q

/-- os.remove: delete a file. -/
def removeFile (fs : FS) (p : String) : FS :=
  fun q => if q = p then none else fs q

/-- os.path.getsize: byte size of a file, `none` when the path is absent
(in which case the Python call raises). -/
def getsize (fs : FS) (p : String) : Option Nat :=
  (fs p).map List.length

/-- Size of a file defaulting to 0 when absent (used only in specifications). -/
def sizeAt (fs : FS) (p : String) : Nat :=
  ((fs p).getD []).length

/-- Python's `s.lower().endswith(suffix)` for an already-lowercase `suffix`,
modelled over the character list of the string.  (Core's `String.toLower` and
`String.endsWith` are kernel-opaque, so the model works on `String.data`.) -/
def lowerEndsWith (s : String) (suffix : String) : Bool :=
  suffix.data.isSuffixOf (s.data.map Char.toLower)

/-- The fixed extension allow-list of `find_images`. -/
def imageExtensions : List String :=
  [".jpg", ".jpeg", ".png", ".webp", ".bmp", ".tiff"]

/-- PIL color modes relevant to the program's branches. -/
inductive Mode
  | RGB
  | RGBA
  | LA
  | P
  | L
  | CMYK
  deriving DecidableEq, Repr

/-- An in-memory decoded image: its color mode and pixel dimensions. -/
structure Artifact where
  mode : Mode
  width : Nat
  height : Nat
  deriving DecidableEq, Repr

/-- Does the artifact's mode carry an alpha channel? -/
def Artifact.hasAlpha (a : Artifact) : Bool :=
  a.mode = Mode.RGBA ∨ a.mode = Mode.LA

/-- Abstract model of the PIL image library: decode may fail, the encoders and
transformations are arbitrary functions.  Theorems that need PIL facts (for
example, that `Image.new` really produces an image of the requested mode and
size) take them as explicit hypotheses. -/
structure Codec where
  decode : Bytes → Option Artifact
  exifTranspose : Artifact → Artifact
  newImage : Mode → Nat × Nat → Nat × Nat × Nat → Artifact
  convert : Artifact → Mode → Artifact
  alphaChannel : Artifact → Artifact
  paste : Artifact → Artifact → Option Artifact → Artifact
  saveJPEG : Artifact → Nat → Bytes
  savePNG : Artifact → Bytes

/-- The runtime environment: the image library, a write-fault oracle
(`writeOk p = false` means `img.save(p, ...)` raises an I/O error), the
`os.walk` tree, and the `os.path.exists` check used for the gallery root. -/
structure Sys where
  codec : Codec
  writeOk : String → Bool
  walkOf : String → List (String × List String)
  dirExists : String → Bool

/-- Lines 35-44 of the source: color-mode normalization.  For RGBA/LA/P a new
opaque white RGB background of the original size is created, a P image is first
converted to RGBA, and the image is pasted onto the background using its alpha
channel as mask when (after conversion) it is RGBA, and no mask otherwise.
Any other non-RGB mode is converted to RGB. -/
def normalizeRGB (c : Codec) (img : Artifact) : Artifact :=
  if img.mode = Mode.RGBA ∨ img.mode = Mode.LA ∨ img.mode = Mode.P then
    let background := c.newImage Mode.RGB (img.width, img.height) (255, 255, 255)
    let img2 := if img.mode = Mode.P then c.convert img Mode.RGBA else img
    let mask := if img2.mode = Mode.RGBA then some (c.alphaChannel img2) else none
    c.paste background img2 mask
  else if ¬ img.mode = Mode.RGB then
    c.convert img Mode.RGB
  else
    img

/-- The literal quality list of line 80: `[current_quality, 75, 65, 55, 45, 35]`. -/
def qualityLadder (q : Nat) : List Nat :=
  [q, 75, 65, 55, 45, 35]

/-- Lines 80-88: for each candidate quality, save to the temp path, measure the
size, and break with that quality once the size fits the target or the quality
is 35.  `best0` is the initial `best_quality` (line 77); a save whose path is
write-faulted raises, returning `none` with the filesystem as mutated so far. -/
def probeLoop (env : Sys) (img : Artifact) (temp : String) (target : ℚ) (best0 : Nat)
    (fs : FS) : List Nat → FS × Option Nat
  | [] => (fs, some best0)
  | q :: rest =>
    if env.writeOk temp = true then
      let encoded := env.codec.saveJPEG img q
      let fs1 := setFile fs temp encoded
      if ((encoded.length : ℚ) ≤ target ∨ q = 35) then (fs1, some q)
      else probeLoop env img temp target best0 fs1 rest
    else (fs, none)

/-- Lines 14-118 of the source, `compress_image`.  Returns the filesystem after
the call together with the boolean result.  Every exception (missing file,
decode failure, write fault) is caught by the `except` at line 116 and yields
`false` with whatever filesystem mutations already happened. -/
def compress_image (env : Sys) (fs : FS) (input_path : String)
    (output_path : Option String) (quality : Nat) (max_size_mb : ℚ) : FS × Bool :=
  match fs input_path with
  | none => (fs, false)
  | some bytes =>
    match env.codec.decode bytes with
    | none => (fs, false)
    | some opened =>
      let original_size := bytes.length
      let img := normalizeRGB env.codec (env.codec.exifTranspose opened)
      let out := output_path.getD input_path
      let target_size : ℚ := max_size_mb * 1024 * 1024
      if (original_size : ℚ) ≤ target_size then (fs, true)
      else if lowerEndsWith input_path ".png" = true then
        if env.writeOk out = true then (setFile fs out (env.codec.savePNG img), true)
        else (fs, false)
      else
        let temp_path := out ++ ".temp"
        match probeLoop env img temp_path target_size quality fs (qualityLadder quality) with
        | (fs1, none) => (fs1, false)
        | (fs1, some best_quality) =>
          if env.writeOk out = true then
            let fs2 := setFile fs1 out (env.codec.saveJPEG img best_quality)
            let fs3 := if (fs2 temp_path).isSome then removeFile fs2 temp_path else fs2
            (fs3, true)
          else (fs1, false)

/-- Lines 121-133, `find_images`: all names in the walk of `directory` whose
lowercased name ends with one of the six extensions, joined to their root
(`os.path.join root file` modelled as `root ++ "/" ++ file`), in walk order. -/
def find_images (walkOf : String → List (String × List String))
    (directory : String) : List String :=
  ((walkOf directory).map fun rd =>
    (rd.2.filter fun f => imageExtensions.any fun ext => lowerEndsWith f ext).map
      fun f => rd.1 ++ "/" ++ f).flatten

/-- The parsed command-line arguments of `main`. -/
structure Config where
  galleryDir : String
  quality : Nat
  maxSize : ℚ
  dryRun : Bool

/-- The run-scoped accumulation state of `main`'s loop (lines 171-186), plus
the filesystem and, for dry runs, the printed classification per file
(`true` = "needs compression", `false` = "already small enough"). -/
structure RunState where
  fs : FS
  successCount : Nat
  totalOriginal : Nat
  totalCompressed : Nat
  report : List (String × Bool)

/-- One iteration of the loop at lines 175-186.  `none` models an uncaught
exception (`os.path.getsize` on a vanished file), which aborts the program. -/
def processOne (env : Sys) (cfg : Config) (st : RunState) (p : String) :
    Option RunState :=
  match getsize st.fs p with
  | none => none
  | some original_size =>
    let st1 : RunState := { st with totalOriginal := st.totalOriginal + original_size }
    if cfg.dryRun then
      some { st1 with report :=
        st1.report ++ [(p, decide ((original_size : ℚ) > cfg.maxSize * 1024 * 1024))] }
    else
      let r := compress_image env st1.fs p none cfg.quality cfg.maxSize
      if r.2 then
        match getsize r.1 p with
        | none => none
        | some compressed_size =>
          some { st1 with
                 fs := r.1
                 successCount := st1.successCount + 1
                 totalCompressed := st1.totalCompressed + compressed_size }
      else some { st1 with fs := r.1 }

/-- The whole per-file loop; the boolean is `true` when the run crashed with an
uncaught exception, in which case the state reached so far is returned. -/
def runLoop (env : Sys) (cfg : Config) : RunState → List String → RunState × Bool
  | st, [] => (st, false)
  | st, p :: rest =>
    match processOne env cfg st p with
    | none => (st, true)
    | some st1 => runLoop env cfg st1 rest

/-- Lines 198-199: the printed overall compression percentage. -/
def total_compression (totalCompressed totalOriginal : Nat) : ℚ :=
  (1 - (totalCompressed : ℚ) / (totalOriginal : ℚ)) * 100

/-- Result of a `main` run: the process exit code, the final accumulation
state, and the overall compression percentage when one is printed. -/
structure MainResult where
  exitCode : Nat
  state : RunState
  percent : Option ℚ

/-- The initial accumulation state over a given filesystem. -/
def initState (fs : FS) : RunState :=
  ⟨fs, 0, 0, 0, []⟩

/-- Lines 136-200, `main`: check the gallery directory, find the images, exit 1
when either fails, run the loop, and print the summary.  An uncaught exception
terminates CPython with exit status 1, modelled by the crash branch.
(The source's function is called `main`; that name is reserved in Lean.) -/
def mainProg (env : Sys) (fs : FS) (cfg : Config) : MainResult :=
  if env.dirExists cfg.galleryDir = true then
    let image_files := find_images env.walkOf cfg.galleryDir
    if image_files = [] then ⟨1, initState fs, none⟩
    else
      let r := runLoop env cfg (initState fs) image_files
      if r.2 then ⟨1, r.1, none⟩
      else
        let percent :=
          if cfg.dryRun then none
          else if 0 < r.1.totalOriginal then
            some (total_compression r.1.totalCompressed r.1.totalOriginal)
          else none
        ⟨0, r.1, percent⟩
  else ⟨1, initState fs, none⟩

/-! ## Concrete instances used to evaluate the model on closed inputs -/

/-- A concrete RGB artifact. -/
def testArtifact : Artifact := ⟨Mode.RGB, 4, 3⟩

/-- A concrete codec: decoding always yields `testArtifact`, JPEG encodes to 2
bytes at every quality, PNG encodes to 5 bytes (possibly larger than the
input), and the mode/size behavior of `newImage`, `convert` and `paste`
follows the image library. -/
def testCodec : Codec :=
  { decode := fun _ => some testArtifact
    exifTranspose := fun a => a
    newImage := fun mo s _ => ⟨mo, s.1, s.2⟩
    convert := fun a mo => ⟨mo, a.width, a.height⟩
    alphaChannel := fun a => ⟨Mode.L, a.width, a.height⟩
    paste := fun bg _ _ => bg
    saveJPEG := fun _ _ => [0, 0]
    savePNG := fun _ => [0, 0, 0, 0, 0] }

/-- An environment where the gallery exists, every write succeeds, and the
walk finds two images and one non-image. -/
def testEnv : Sys :=
  { codec := testCodec
    writeOk := fun _ => true
    walkOf := fun _ => [("g", ["a.jpg", "b.png", "notes.txt"])]
    dirExists := fun _ => true }

/-- A small filesystem with two 3-byte image files. -/
def testFS : FS := fun p =>
  if p = "g/a.jpg" then some [1, 2, 3]
  else if p = "g/b.png" then some [4, 5, 6]
  else none

/-- An environment whose only writable path is the temp file of `g/a.jpg`:
the final `img.save` to the output path raises. -/
def leakEnv : Sys :=
  { codec := testCodec
    writeOk := fun p => decide (p = "g/a.jpg.temp")
    walkOf := fun _ => []
    dirExists := fun _ => false }

/-- A concrete artifact with an alpha channel. -/
def rgbaImg : Artifact := ⟨Mode.RGBA, 7, 5⟩

/-- A codec that cannot decode anything. -/
def brokenCodec : Codec :=
  { testCodec with decode := fun _ => none }

/-- An environment with the failing decoder. -/
def brokenEnv : Sys :=
  { testEnv with codec := brokenCodec }

/-- Concrete non-dry-run CLI arguments. -/
def testCfg : Config := ⟨"g", 85, 2, false⟩

/-- Concrete non-dry-run CLI arguments with a zero size budget. -/
def testCfgTight : Config := ⟨"g", 85, 0, false⟩

/-- Concrete dry-run CLI arguments. -/
def testCfgDry : Config := ⟨"g", 85, 2, true⟩

/-- A concrete run state over `testFS`. -/
def testState : RunState := initState testFS

/-! ## Basic lemmas about the filesystem model -/

lemma setFile_self (fs : FS) (p : String) (b : Bytes) : setFile fs p b p = some b := by
  simp [setFile]

lemma setFile_ne (fs : FS) (p : String) (b : Bytes) (q : String) (h : q ≠ p) :
    setFile fs p b q = fs q := by
  simp [setFile, h]

lemma removeFile_self (fs : FS) (p : String) : removeFile fs p p = none := by
  simp [removeFile]

lemma removeFile_ne (fs : FS) (p : String) (q : String) (h : q ≠ p) :
    removeFile fs p q = fs q := by
  simp [removeFile, h]

lemma append_temp_ne (s : String) : s ++ ".temp" ≠ s := by
  intro h
  have h2 := congrArg String.length h
  rw [String.length_append] at h2
  have h3 : String.length ".temp" = 5 := by decide
  omega

/-! ## Lemmas about the probe loop -/

lemma probeLoop_frame (env : Sys) (img : Artifact) (temp : String) (target : ℚ)
    (best0 : Nat) :
    ∀ (l : List Nat) (fs : FS) (p : String), p ≠ temp →
      (probeLoop env img temp target best0 fs l).1 p = fs p := by
  intro l
  induction l with
  | nil => intro fs p hp; rfl
  | cons q rest ih =>
    intro fs p hp
    simp only [probeLoop]
    split
    · split
      · simpa using setFile_ne fs temp _ p hp
      · rw [ih _ p hp]
        exact setFile_ne fs temp _ p hp
    · rfl

lemma probeLoop_first (env : Sys) (img : Artifact) (temp : String) (target : ℚ)
    (best0 : Nat) (hw : env.writeOk temp = true) :
    ∀ (l : List Nat) (fs : FS),
      (∃ x ∈ l, (((env.codec.saveJPEG img x).length : ℚ) ≤ target ∨ x = 35)) →
      ∃ best fs1, probeLoop env img temp target best0 fs l = (fs1, some best) ∧
        (((env.codec.saveJPEG img best).length : ℚ) ≤ target ∨ best = 35) ∧
        (∃ pre post, l = pre ++ best :: post ∧
          ∀ x ∈ pre, ¬ (((env.codec.saveJPEG img x).length : ℚ) ≤ target ∨ x = 35)) ∧
        fs1 temp = some (env.codec.saveJPEG img best) ∧
        ∀ p, p ≠ temp → fs1 p = fs p := by
  intro l
  induction l with
  | nil => intro fs h; simp at h
  | cons q rest ih =>
    intro fs h
    by_cases hc : (((env.codec.saveJPEG img q).length : ℚ) ≤ target ∨ q = 35)
    · refine ⟨q, setFile fs temp (env.codec.saveJPEG img q), ?_, hc, ⟨[], rest, rfl, by simp⟩,
        setFile_self fs temp _, fun p hp => setFile_ne fs temp _ p hp⟩
      simp only [probeLoop, hw, if_pos, if_true]
      rw [if_pos hc]
    · have hrest : ∃ x ∈ rest, (((env.codec.saveJPEG img x).length : ℚ) ≤ target ∨ x = 35) := by
        rcases h with ⟨x, hx, hxc⟩
        rcases List.mem_cons.mp hx with rfl | hx2
        · exact absurd hxc hc
        · exact ⟨x, hx2, hxc⟩
      rcases ih (setFile fs temp (env.codec.saveJPEG img q)) hrest with
        ⟨best, fs1, heq, hbest, ⟨pre, post, hdecomp, hpre⟩, htemp, hframe⟩
      refine ⟨best, fs1, ?_, hbest, ⟨q :: pre, post, by rw [hdecomp]; rfl, ?_⟩, htemp, ?_⟩
      · simp only [probeLoop, hw, if_true]
        rw [if_neg hc]
        exact heq
      · intro x hx
        rcases List.mem_cons.mp hx with rfl | hx2
        · exact hc
        · exact hpre x hx2
      · intro p hp
        rw [hframe p hp]
        exact setFile_ne fs temp _ p hp

/-! ## Frame lemmas about compress_image -/

lemma compress_frame (env : Sys) (fs : FS) (input : String) (outp : Option String)
    (q : Nat) (m : ℚ) (p : String)
    (h1 : p ≠ outp.getD input) (h2 : p ≠ outp.getD input ++ ".temp") :
    (compress_image env fs input outp q m).1 p = fs p := by
  rcases hfi : fs input with _ | bytes
  · simp only [compress_image, hfi]
  · rcases hdec : env.codec.decode bytes with _ | opened
    · simp only [compress_image, hfi, hdec]
    · simp only [compress_image, hfi, hdec]
      by_cases hsz : ((bytes.length : Nat) : ℚ) ≤ m * 1024 * 1024
      · rw [if_pos hsz]
      · rw [if_neg hsz]
        by_cases hpng : lowerEndsWith input ".png" = true
        · rw [if_pos hpng]
          by_cases hw : env.writeOk (outp.getD input) = true
          · rw [if_pos hw]
            exact setFile_ne fs _ _ p h1
          · rw [if_neg hw]
        · rw [if_neg hpng]
          split
          · rename_i fs1 heq
            have hfr := probeLoop_frame env
              (normalizeRGB env.codec (env.codec.exifTranspose opened))
              (outp.getD input ++ ".temp")
              (m * 1024 * 1024) q (qualityLadder q) fs p h2
            rw [heq] at hfr
            exact hfr
          · rename_i fs1 best heq
            have hfr := probeLoop_frame env
              (normalizeRGB env.codec (env.codec.exifTranspose opened))
              (outp.getD input ++ ".temp")
              (m * 1024 * 1024) q (qualityLadder q) fs p h2
            rw [heq] at hfr
            by_cases hw : env.writeOk (outp.getD input) = true
            · rw [if_pos hw]
              dsimp only
              split
              · rw [removeFile_ne _ _ p h2, setFile_ne fs1 _ _ p h1]
                exact hfr
              · rw [setFile_ne fs1 _ _ p h1]
                exact hfr
            · rw [if_neg hw]
              exact hfr

lemma compress_preserves_file (env : Sys) (fs : FS) (input : String)
    (q : Nat) (m : ℚ) (p : String)
    (hne : p ≠ input ++ ".temp") (hp : (fs p).isSome = true) :
    (((compress_image env fs input none q m).1 p).isSome) = true := by
  by_cases hpi : p = input
  · subst hpi
    rcases hfi : fs p with _ | bytes
    · rw [hfi] at hp
      simp at hp
    · rcases hdec : env.codec.decode bytes with _ | opened
      · simp only [compress_image, hfi, hdec]
        rfl
      · simp only [compress_image, hfi, hdec, Option.getD]
        by_cases hsz : ((bytes.length : Nat) : ℚ) ≤ m * 1024 * 1024
        · rw [if_pos hsz]
          simp [hfi]
        · rw [if_neg hsz]
          by_cases hpng : lowerEndsWith p ".png" = true
          · rw [if_pos hpng]
            by_cases hw : env.writeOk p = true
            · rw [if_pos hw]
              simp [setFile_self]
            · rw [if_neg hw]
              simp [hfi]
          · rw [if_neg hpng]
            split
            · rename_i fs1 heq
              have hfr := probeLoop_frame env
                (normalizeRGB env.codec (env.codec.exifTranspose opened))
                (p ++ ".temp") (m * 1024 * 1024) q (qualityLadder q) fs p hne
              rw [heq] at hfr
              dsimp only at hfr ⊢
              simp [hfr, hfi]
            · rename_i fs1 best heq
              have hfr := probeLoop_frame env
                (normalizeRGB env.codec (env.codec.exifTranspose opened))
                (p ++ ".temp") (m * 1024 * 1024) q (qualityLadder q) fs p hne
              rw [heq] at hfr
              dsimp only at hfr
              by_cases hw : env.writeOk p = true
              · rw [if_pos hw]
                dsimp only
                split
                · rw [removeFile_ne _ _ p hne, setFile_self]
                  rfl
                · rw [setFile_self]
                  rfl
              · rw [if_neg hw]
                dsimp only
                simp [hfr, hfi]
  · rw [compress_frame env fs input none q m p hpi hne]
    exact hp

lemma getsize_isSome (fs : FS) (p : String) (h : (fs p).isSome = true) :
    getsize fs p = some (sizeAt fs p) := by
  rcases hfp : fs p with _ | b
  · rw [hfp] at h
    simp at h
  · simp [getsize, sizeAt, hfp]

/-- Shape of a successful JPEG-branch run of `compress_image`: the probe loop
stops at the first ladder quality whose encoded size fits the target or which
equals 35, the final file is written at that quality, and the temp file is
removed. -/
lemma compress_jpeg_shape (env : Sys) (fs : FS) (input : String) (outp : Option String)
    (quality : Nat) (m : ℚ) (bytes : Bytes) (opened : Artifact)
    (hfi : fs input = some bytes) (hdec : env.codec.decode bytes = some opened)
    (hbig : ¬ ((bytes.length : Nat) : ℚ) ≤ m * 1024 * 1024)
    (hpng : lowerEndsWith input ".png" = false)
    (hwt : env.writeOk (outp.getD input ++ ".temp") = true)
    (hwo : env.writeOk (outp.getD input) = true) :
    ∃ best fs1,
      probeLoop env (normalizeRGB env.codec (env.codec.exifTranspose opened))
          (outp.getD input ++ ".temp") (m * 1024 * 1024) quality fs (qualityLadder quality)
        = (fs1, some best) ∧
      (((env.codec.saveJPEG (normalizeRGB env.codec (env.codec.exifTranspose opened))
            best).length : ℚ) ≤ m * 1024 * 1024 ∨ best = 35) ∧
      (∃ pre post, qualityLadder quality = pre ++ best :: post ∧
        ∀ x ∈ pre, ¬ (((env.codec.saveJPEG
          (normalizeRGB env.codec (env.codec.exifTranspose opened)) x).length : ℚ)
            ≤ m * 1024 * 1024 ∨ x = 35)) ∧
      compress_image env fs input outp quality m =
        (removeFile (setFile fs1 (outp.getD input)
            (env.codec.saveJPEG (normalizeRGB env.codec (env.codec.exifTranspose opened)) best))
          (outp.getD input ++ ".temp"), true) := by
  obtain ⟨best, fs1, heq, hbest, hdecomp, htemp, hframe⟩ :=
    probeLoop_first env (normalizeRGB env.codec (env.codec.exifTranspose opened))
      (outp.getD input ++ ".temp") (m * 1024 * 1024) quality hwt (qualityLadder quality) fs
      ⟨35, by simp [qualityLadder], Or.inr rfl⟩
  refine ⟨best, fs1, heq, hbest, hdecomp, ?_⟩
  simp only [compress_image, hfi, hdec]
  rw [if_neg hbig, if_neg (by simp [hpng])]
  rw [heq]
  dsimp only
  rw [if_pos hwo]
  have hto : (outp.getD input ++ ".temp") ≠ outp.getD input := append_temp_ne _
  have hs : setFile fs1 (outp.getD input)
      (env.codec.saveJPEG (normalizeRGB env.codec (env.codec.exifTranspose opened)) best)
      (outp.getD input ++ ".temp") = fs1 (outp.getD input ++ ".temp") :=
    setFile_ne fs1 _ _ _ hto
  rw [hs, htemp]
  rfl

/-! ## Lemmas about the per-file loop -/

lemma processOne_dry (env : Sys) (cfg : Config) (st : RunState) (p : String) (sz : Nat)
    (hdry : cfg.dryRun = true) (hg : getsize st.fs p = some sz) :
    processOne env cfg st p = some { st with
      totalOriginal := st.totalOriginal + sz
      report := st.report ++ [(p, decide ((sz : ℚ) > cfg.maxSize * 1024 * 1024))] } := by
  simp only [processOne, hg, hdry]
  rfl

lemma processOne_fail (env : Sys) (cfg : Config) (st : RunState) (p : String) (sz : Nat)
    (hdry : cfg.dryRun = false) (hg : getsize st.fs p = some sz)
    (hr : (compress_image env st.fs p none cfg.quality cfg.maxSize).2 = false) :
    processOne env cfg st p = some { st with
      fs := (compress_image env st.fs p none cfg.quality cfg.maxSize).1
      totalOriginal := st.totalOriginal + sz } := by
  simp only [processOne, hg, hdry]
  simp only [Bool.false_eq_true, if_false]
  rw [if_neg (by rw [hr]; exact Bool.false_ne_true)]

lemma processOne_succeed (env : Sys) (cfg : Config) (st : RunState) (p : String)
    (sz c : Nat) (hdry : cfg.dryRun = false) (hg : getsize st.fs p = some sz)
    (hr : (compress_image env st.fs p none cfg.quality cfg.maxSize).2 = true)
    (hc : getsize (compress_image env st.fs p none cfg.quality cfg.maxSize).1 p = some c) :
    processOne env cfg st p = some { st with
      fs := (compress_image env st.fs p none cfg.quality cfg.maxSize).1
      successCount := st.successCount + 1
      totalOriginal := st.totalOriginal + sz
      totalCompressed := st.totalCompressed + c } := by
  simp only [processOne, hg, hdry]
  simp only [Bool.false_eq_true, if_false]
  rw [if_pos hr, hc]

lemma runLoop_cons (env : Sys) (cfg : Config) (st st1 : RunState) (p : String)
    (rest : List String) (h : processOne env cfg st p = some st1) :
    runLoop env cfg st (p :: rest) = runLoop env cfg st1 rest := by
  simp only [runLoop, h]

lemma runLoop_dry (env : Sys) (cfg : Config) (hdry : cfg.dryRun = true) :
    ∀ (l : List String) (st : RunState), (∀ p ∈ l, (st.fs p).isSome = true) →
      (runLoop env cfg st l).2 = false ∧
      (runLoop env cfg st l).1.fs = st.fs ∧
      (runLoop env cfg st l).1.report = st.report ++
        l.map (fun p => (p, decide ((sizeAt st.fs p : ℚ) > cfg.maxSize * 1024 * 1024))) ∧
      (runLoop env cfg st l).1.totalOriginal =
        st.totalOriginal + (l.map (sizeAt st.fs)).sum := by
  intro l
  induction l with
  | nil => intro st _; simp [runLoop]
  | cons p rest ih =>
    intro st hex
    have hp : (st.fs p).isSome = true := hex p (List.mem_cons_self p rest)
    have hg := getsize_isSome st.fs p hp
    have hstep := processOne_dry env cfg st p (sizeAt st.fs p) hdry hg
    rw [runLoop_cons env cfg st _ p rest hstep]
    have hex2 : ∀ q ∈ rest, (st.fs q).isSome = true :=
      fun q hq => hex q (List.mem_cons_of_mem p hq)
    obtain ⟨hcr, hfs, hrep, htot⟩ := ih { st with
      totalOriginal := st.totalOriginal + sizeAt st.fs p
      report := st.report ++
        [(p, decide ((sizeAt st.fs p : ℚ) > cfg.maxSize * 1024 * 1024))] } hex2
    refine ⟨hcr, ?_, ?_, ?_⟩
    · simpa using hfs
    · rw [hrep]
      simp
    · rw [htot]
      simp
      omega

lemma runLoop_nodry (env : Sys) (cfg : Config) (hdry : cfg.dryRun = false) :
    ∀ (l : List String) (st : RunState), l.Nodup →
      (∀ p ∈ l, (st.fs p).isSome = true) →
      (∀ p ∈ l, ∀ q2 ∈ l, p ≠ q2 ++ ".temp") →
      (runLoop env cfg st l).2 = false ∧
      ∃ outs : List (Nat × Option Nat),
        outs.length = l.length ∧
        outs.map Prod.fst = l.map (sizeAt st.fs) ∧
        (runLoop env cfg st l).1.totalOriginal =
          st.totalOriginal + (outs.map Prod.fst).sum ∧
        (runLoop env cfg st l).1.successCount =
          st.successCount + (outs.filter (fun o => o.2.isSome)).length ∧
        (runLoop env cfg st l).1.totalCompressed =
          st.totalCompressed + (outs.map (fun o => o.2.getD 0)).sum := by
  intro l
  induction l with
  | nil =>
    intro st _ _ _
    exact ⟨rfl, [], rfl, rfl, by simp [runLoop], by simp [runLoop], by simp [runLoop]⟩
  | cons p rest ih =>
    intro st hnd hex hdisj
    have hp : (st.fs p).isSome = true := hex p (List.mem_cons_self p rest)
    have hg := getsize_isSome st.fs p hp
    have hptemp : p ≠ p ++ ".temp" := (append_temp_ne p).symm
    have hnd2 := (List.nodup_cons.mp hnd).2
    have hframe : ∀ q ∈ rest,
        (compress_image env st.fs p none cfg.quality cfg.maxSize).1 q = st.fs q := by
      intro q hq
      have hq1 : q ≠ p := by
        intro h
        subst h
        exact (List.nodup_cons.mp hnd).1 hq
      have hq2 : q ≠ p ++ ".temp" :=
        hdisj q (List.mem_cons_of_mem p hq) p (List.mem_cons_self p rest)
      exact compress_frame env st.fs p none cfg.quality cfg.maxSize q hq1 hq2
    have hexr : ∀ q ∈ rest,
        (((compress_image env st.fs p none cfg.quality cfg.maxSize).1 q).isSome) = true := by
      intro q hq
      rw [hframe q hq]
      exact hex q (List.mem_cons_of_mem p hq)
    have hsz : ∀ q ∈ rest,
        sizeAt (compress_image env st.fs p none cfg.quality cfg.maxSize).1 q =
          sizeAt st.fs q := by
      intro q hq
      unfold sizeAt
      rw [hframe q hq]
    have hdisj2 : ∀ a ∈ rest, ∀ b ∈ rest, a ≠ b ++ ".temp" := fun a ha b hb =>
      hdisj a (List.mem_cons_of_mem p ha) b (List.mem_cons_of_mem p hb)
    cases hr2 : (compress_image env st.fs p none cfg.quality cfg.maxSize).2 with
    | false =>
      have hstep := processOne_fail env cfg st p (sizeAt st.fs p) hdry hg hr2
      rw [runLoop_cons env cfg st _ p rest hstep]
      obtain ⟨hcr, outs, hlen, hfst, htot, hsucc, hcomp⟩ := ih
        { st with
          fs := (compress_image env st.fs p none cfg.quality cfg.maxSize).1
          totalOriginal := st.totalOriginal + sizeAt st.fs p }
        hnd2 hexr hdisj2
      refine ⟨hcr, (sizeAt st.fs p, none) :: outs, by simp [hlen], ?_, ?_, ?_, ?_⟩
      · simp only [List.map_cons]
        rw [hfst]
        exact congrArg (sizeAt st.fs p :: ·) (List.map_congr_left hsz)
      · rw [htot]
        simp only [List.map_cons, List.sum_cons]
        omega
      · rw [hsucc]
        simp
      · rw [hcomp]
        simp
    | true =>
      have hcsome : (((compress_image env st.fs p none cfg.quality cfg.maxSize).1 p).isSome)
          = true :=
        compress_preserves_file env st.fs p cfg.quality cfg.maxSize p hptemp hp
      have hc := getsize_isSome _ p hcsome
      have hstep := processOne_succeed env cfg st p (sizeAt st.fs p)
        (sizeAt (compress_image env st.fs p none cfg.quality cfg.maxSize).1 p) hdry hg hr2 hc
      rw [runLoop_cons env cfg st _ p rest hstep]
      obtain ⟨hcr, outs, hlen, hfst, htot, hsucc, hcomp⟩ := ih
        { st with
          fs := (compress_image env st.fs p none cfg.quality cfg.maxSize).1
          successCount := st.successCount + 1
          totalOriginal := st.totalOriginal + sizeAt st.fs p
          totalCompressed := st.totalCompressed +
            sizeAt (compress_image env st.fs p none cfg.quality cfg.maxSize).1 p }
        hnd2 hexr hdisj2
      refine ⟨hcr,
        (sizeAt st.fs p,
          some (sizeAt (compress_image env st.fs p none cfg.quality cfg.maxSize).1 p)) :: outs,
        by simp [hlen], ?_, ?_, ?_, ?_⟩
      · simp only [List.map_cons]
        rw [hfst]
        exact congrArg (sizeAt st.fs p :: ·) (List.map_congr_left hsz)
      · rw [htot]
        simp only [List.map_cons, List.sum_cons]
        omega
      · rw [hsucc]
        simp
        omega
      · rw [hcomp]
        simp only [List.map_cons, List.sum_cons, Option.getD_some]
        omega

/-! ## Claim theorems -/

/-- Claim C2: for every input file that decodes and whose original byte size is
at or below the target maximum, `compress_image` is a no-op that reports
success: the filesystem is returned unchanged (no bytes are written to the
output path, the file's bytes are unchanged) and the file's size afterwards
equals the original size.  No hypothesis restricts the format, so this covers
every extension including PNG. -/
theorem c2_small_file_noop (env : Sys) (fs : FS) (input : String) (outp : Option String)
    (q : Nat) (m : ℚ) (bytes : Bytes) (opened : Artifact)
    (hfi : fs input = some bytes) (hdec : env.codec.decode bytes = some opened)
    (hsmall : ((bytes.length : Nat) : ℚ) ≤ m * 1024 * 1024) :
    compress_image env fs input outp q m = (fs, true) ∧
    getsize (compress_image env fs input outp q m).1 input = getsize fs input := by
  have h : compress_image env fs input outp q m = (fs, true) := by
    simp only [compress_image, hfi, hdec]
    rw [if_pos hsmall]
  exact ⟨h, by rw [h]⟩

theorem c2_small_file_noop_witness :
    testFS "g/a.jpg" = some [1, 2, 3] ∧
    testEnv.codec.decode [1, 2, 3] = some testArtifact ∧
    ((([1, 2, 3] : Bytes).length : ℚ) ≤ 2 * 1024 * 1024) ∧
    (compress_image testEnv testFS "g/a.jpg" none 85 2 = (testFS, true) ∧
      getsize (compress_image testEnv testFS "g/a.jpg" none 85 2).1 "g/a.jpg" =
        getsize testFS "g/a.jpg") :=
  ⟨rfl, rfl, by norm_num,
    c2_small_file_noop testEnv testFS "g/a.jpg" none 85 2 [1, 2, 3] testArtifact rfl rfl
      (by norm_num)⟩

/-- Claim C3: for every PNG input (lowercased name ending in ".png") that
decodes and whose size exceeds the target maximum, the compressor re-encodes
with the PNG encoder (no quality parameter exists in the PNG branch) and
overwrites the output path unconditionally — the result is exactly the losslessly
re-encoded bytes and success, with no hypothesis about the encoded size, so the
branch succeeds even when the optimized PNG is larger than the original. -/
theorem c3_png_unconditional (env : Sys) (fs : FS) (input : String)
    (outp : Option String) (q : Nat) (m : ℚ) (bytes : Bytes) (opened : Artifact)
    (hfi : fs input = some bytes) (hdec : env.codec.decode bytes = some opened)
    (hbig : ¬ ((bytes.length : Nat) : ℚ) ≤ m * 1024 * 1024)
    (hpng : lowerEndsWith input ".png" = true)
    (hw : env.writeOk (outp.getD input) = true) :
    compress_image env fs input outp q m =
      (setFile fs (outp.getD input)
        (env.codec.savePNG (normalizeRGB env.codec (env.codec.exifTranspose opened))),
       true) := by
  simp only [compress_image, hfi, hdec]
  rw [if_neg hbig, if_pos hpng, if_pos hw]

theorem c3_png_unconditional_witness :
    testFS "g/b.png" = some [4, 5, 6] ∧
    testEnv.codec.decode [4, 5, 6] = some testArtifact ∧
    (¬ ((([4, 5, 6] : Bytes).length : ℚ) ≤ 0 * 1024 * 1024)) ∧
    lowerEndsWith "g/b.png" ".png" = true ∧
    testEnv.writeOk "g/b.png" = true ∧
    compress_image testEnv testFS "g/b.png" none 85 0 =
      (setFile testFS "g/b.png"
        (testEnv.codec.savePNG (normalizeRGB testEnv.codec
          (testEnv.codec.exifTranspose testArtifact))), true) ∧
    ([4, 5, 6] : Bytes).length <
      (testEnv.codec.savePNG (normalizeRGB testEnv.codec
        (testEnv.codec.exifTranspose testArtifact))).length :=
  ⟨rfl, rfl, by norm_num, by decide, rfl,
    c3_png_unconditional testEnv testFS "g/b.png" none 85 0 [4, 5, 6] testArtifact rfl rfl
      (by norm_num) (by decide) rfl,
    by decide⟩

/-- Claim C5: when an exception is raised during compression — here, decode
failure on data the codec cannot parse — `compress_image` catches it and
returns a failure result with the input file's bytes untouched, and the
per-file failure does not stop processing: the loop on the remaining files
continues from the same state except for the original-size accumulator.
(Printing of the file name and message, line 117, is I/O and is not part of
the state model.) -/
theorem c5_exception_failure (env : Sys) (cfg : Config) (st : RunState) (input : String)
    (rest : List String) (bytes : Bytes) (q : Nat) (m : ℚ)
    (hfi : st.fs input = some bytes) (hdec : env.codec.decode bytes = none)
    (hdry : cfg.dryRun = false) :
    compress_image env st.fs input none q m = (st.fs, false) ∧
    processOne env cfg st input =
      some { st with totalOriginal := st.totalOriginal + bytes.length } ∧
    runLoop env cfg st (input :: rest) =
      runLoop env cfg { st with totalOriginal := st.totalOriginal + bytes.length } rest := by
  have h1 : compress_image env st.fs input none q m = (st.fs, false) := by
    simp only [compress_image, hfi, hdec]
  have h1c : compress_image env st.fs input none cfg.quality cfg.maxSize = (st.fs, false) := by
    simp only [compress_image, hfi, hdec]
  have hg : getsize st.fs input = some bytes.length := by
    simp [getsize, hfi]
  have h2 := processOne_fail env cfg st input bytes.length hdry hg (by rw [h1c])
  rw [h1c] at h2
  exact ⟨h1, h2, runLoop_cons env cfg st _ input rest h2⟩

theorem c5_exception_failure_witness :
    testState.fs "g/a.jpg" = some [1, 2, 3] ∧
    brokenEnv.codec.decode [1, 2, 3] = none ∧
    testCfg.dryRun = false ∧
    (compress_image brokenEnv testState.fs "g/a.jpg" none 85 2 = (testState.fs, false) ∧
      processOne brokenEnv testCfg testState "g/a.jpg" =
        some { testState with totalOriginal := testState.totalOriginal + 3 } ∧
      runLoop brokenEnv testCfg testState ["g/a.jpg", "g/b.png"] =
        runLoop brokenEnv testCfg
          { testState with totalOriginal := testState.totalOriginal + 3 } ["g/b.png"]) :=
  ⟨rfl, rfl, rfl,
    c5_exception_failure brokenEnv testCfg testState "g/a.jpg" ["g/b.png"] [1, 2, 3] 85 2
      rfl rfl rfl⟩

/-- Claim C8: membership in `find_images walkOf root` holds exactly for the
paths obtained by joining a walked directory with one of its file names whose
lowercased name ends in one of the six allowed extensions.  The
characterization involves only the walk and the name — no size, validity or
readability condition appears. -/
theorem c8_find_images_spec (walkOf : String → List (String × List String))
    (directory : String) (p : String) :
    p ∈ find_images walkOf directory ↔
      ∃ rd ∈ walkOf directory, ∃ f ∈ rd.2,
        (imageExtensions.any fun ext => lowerEndsWith f ext) = true ∧
        p = rd.1 ++ "/" ++ f := by
  simp only [find_images, List.mem_flatten, List.mem_map]
  constructor
  · rintro ⟨l, ⟨rd, hrd, rfl⟩, hpl⟩
    rcases List.mem_map.mp hpl with ⟨f, hf, rfl⟩
    rcases List.mem_filter.mp hf with ⟨hf2, hmatch⟩
    exact ⟨rd, hrd, f, hf2, hmatch, rfl⟩
  · rintro ⟨rd, hrd, f, hf, hmatch, rfl⟩
    exact ⟨_, ⟨rd, hrd, rfl⟩,
      List.mem_map_of_mem _ (List.mem_filter.mpr ⟨hf, hmatch⟩)⟩

/-- Claim C1: for every non-PNG input above the target maximum (decoding and
both writes succeeding), the accepted quality `best` is the first element of
the ladder `[requested, 75, 65, 55, 45, 35]` whose encoded size fits the
target or whose value is 35; it is a member of the ladder, every earlier
ladder element was probed and rejected, no probe occurs past a 35 (35 is never
among the rejected elements), the call succeeds, and the output file holds the
encoding at quality `best`. -/
theorem c1_quality_ladder (env : Sys) (fs : FS) (input : String) (outp : Option String)
    (quality : Nat) (m : ℚ) (bytes : Bytes) (opened : Artifact)
    (hfi : fs input = some bytes) (hdec : env.codec.decode bytes = some opened)
    (hbig : ¬ ((bytes.length : Nat) : ℚ) ≤ m * 1024 * 1024)
    (hpng : lowerEndsWith input ".png" = false)
    (hwt : env.writeOk (outp.getD input ++ ".temp") = true)
    (hwo : env.writeOk (outp.getD input) = true) :
    ∃ best pre post,
      qualityLadder quality = pre ++ best :: post ∧
      best ∈ qualityLadder quality ∧
      (((env.codec.saveJPEG (normalizeRGB env.codec (env.codec.exifTranspose opened))
          best).length : ℚ) ≤ m * 1024 * 1024 ∨ best = 35) ∧
      (∀ x ∈ pre, ¬ (((env.codec.saveJPEG
          (normalizeRGB env.codec (env.codec.exifTranspose opened)) x).length : ℚ)
            ≤ m * 1024 * 1024 ∨ x = 35)) ∧
      35 ∉ pre ∧
      (compress_image env fs input outp quality m).2 = true ∧
      (compress_image env fs input outp quality m).1 (outp.getD input) =
        some (env.codec.saveJPEG (normalizeRGB env.codec (env.codec.exifTranspose opened))
          best) := by
  obtain ⟨best, fs1, heq, hbest, ⟨pre, post, hdecomp, hpre⟩, hcompr⟩ :=
    compress_jpeg_shape env fs input outp quality m bytes opened hfi hdec hbig hpng hwt hwo
  refine ⟨best, pre, post, hdecomp, ?_, hbest, hpre, ?_, ?_, ?_⟩
  · rw [hdecomp]
    exact List.mem_append_right pre (List.mem_cons_self best post)
  · intro h35
    exact hpre 35 h35 (Or.inr rfl)
  · rw [hcompr]
  · rw [hcompr]
    dsimp only
    rw [removeFile_ne _ _ _ (Ne.symm (append_temp_ne (outp.getD input)))]
    exact setFile_self fs1 _ _

theorem c1_quality_ladder_witness :
    testFS "g/a.jpg" = some [1, 2, 3] ∧
    testEnv.codec.decode [1, 2, 3] = some testArtifact ∧
    (¬ ((([1, 2, 3] : Bytes).length : ℚ) ≤ 0 * 1024 * 1024)) ∧
    lowerEndsWith "g/a.jpg" ".png" = false ∧
    testEnv.writeOk ((none : Option String).getD "g/a.jpg" ++ ".temp") = true ∧
    testEnv.writeOk ((none : Option String).getD "g/a.jpg") = true ∧
    (∃ best pre post,
      qualityLadder 85 = pre ++ best :: post ∧
      best ∈ qualityLadder 85 ∧
      (((testEnv.codec.saveJPEG (normalizeRGB testEnv.codec
          (testEnv.codec.exifTranspose testArtifact)) best).length : ℚ)
            ≤ 0 * 1024 * 1024 ∨ best = 35) ∧
      (∀ x ∈ pre, ¬ (((testEnv.codec.saveJPEG (normalizeRGB testEnv.codec
          (testEnv.codec.exifTranspose testArtifact)) x).length : ℚ)
            ≤ 0 * 1024 * 1024 ∨ x = 35)) ∧
      35 ∉ pre ∧
      (compress_image testEnv testFS "g/a.jpg" none 85 0).2 = true ∧
      (compress_image testEnv testFS "g/a.jpg" none 85 0).1
          ((none : Option String).getD "g/a.jpg") =
        some (testEnv.codec.saveJPEG (normalizeRGB testEnv.codec
          (testEnv.codec.exifTranspose testArtifact)) best)) :=
  ⟨rfl, rfl, by norm_num, by decide, rfl, rfl,
    c1_quality_ladder testEnv testFS "g/a.jpg" none 85 0 [1, 2, 3] testArtifact rfl rfl
      (by norm_num) (by decide) rfl rfl⟩

/-- Claim C6 (amended): on the success path of the JPEG branch the temp file
(output path with ".temp" appended) is removed before `compress_image`
returns; on exception paths that fire after a probe wrote the temp file — such
as the final save to the output path failing — the temp file is left behind
(see the counterexample). -/
theorem c6_temp_removed_on_success (env : Sys) (fs : FS) (input : String)
    (outp : Option String) (quality : Nat) (m : ℚ) (bytes : Bytes) (opened : Artifact)
    (hfi : fs input = some bytes) (hdec : env.codec.decode bytes = some opened)
    (hbig : ¬ ((bytes.length : Nat) : ℚ) ≤ m * 1024 * 1024)
    (hpng : lowerEndsWith input ".png" = false)
    (hwt : env.writeOk (outp.getD input ++ ".temp") = true)
    (hwo : env.writeOk (outp.getD input) = true) :
    (compress_image env fs input outp quality m).2 = true ∧
    (compress_image env fs input outp quality m).1 (outp.getD input ++ ".temp") = none := by
  obtain ⟨best, fs1, heq, hbest, hdecomp, hcompr⟩ :=
    compress_jpeg_shape env fs input outp quality m bytes opened hfi hdec hbig hpng hwt hwo
  refine ⟨?_, ?_⟩ <;> rw [hcompr]
  exact removeFile_self _ _

theorem c6_temp_removed_on_success_witness :
    testFS "g/a.jpg" = some [1, 2, 3] ∧
    testEnv.codec.decode [1, 2, 3] = some testArtifact ∧
    (¬ ((([1, 2, 3] : Bytes).length : ℚ) ≤ 0 * 1024 * 1024)) ∧
    lowerEndsWith "g/a.jpg" ".png" = false ∧
    ((compress_image testEnv testFS "g/a.jpg" none 85 0).2 = true ∧
      (compress_image testEnv testFS "g/a.jpg" none 85 0).1
        ((none : Option String).getD "g/a.jpg" ++ ".temp") = none) :=
  ⟨rfl, rfl, by norm_num, by decide,
    c6_temp_removed_on_success testEnv testFS "g/a.jpg" none 85 0 [1, 2, 3] testArtifact
      rfl rfl (by norm_num) (by decide) rfl rfl⟩

/-- Claim C6 is false as stated: in `leakEnv` the temp path is writable but
the output path is not, so the final save raises, `compress_image` returns
failure, and the temp file `g/a.jpg.temp` is left on the filesystem — a
failure path on which the temporary probe file is not removed. -/
theorem c6_temp_leak_counterexample :
    (compress_image leakEnv testFS "g/a.jpg" none 85 0).2 = false ∧
    (compress_image leakEnv testFS "g/a.jpg" none 85 0).1 "g/a.jpg.temp" = some [0, 0] := by
  have hfi : testFS "g/a.jpg" = some [1, 2, 3] := rfl
  have hdec : leakEnv.codec.decode [1, 2, 3] = some testArtifact := rfl
  have hbig : ¬ ((((List.length [1, 2, 3] : Nat)) : ℚ) ≤ 0 * 1024 * 1024) := by norm_num
  have hpng : lowerEndsWith "g/a.jpg" ".png" = false := by decide
  have hwt : leakEnv.writeOk ("g/a.jpg" ++ ".temp") = true := by decide
  have hwo : leakEnv.writeOk "g/a.jpg" = false := by decide
  obtain ⟨best, fs1, heq, hbest, hdec2, htemp, hframe⟩ :=
    probeLoop_first leakEnv
      (normalizeRGB leakEnv.codec (leakEnv.codec.exifTranspose testArtifact))
      ("g/a.jpg" ++ ".temp") (0 * 1024 * 1024) 85 hwt (qualityLadder 85) testFS
      ⟨35, by simp [qualityLadder], Or.inr rfl⟩
  have hjoin : ("g/a.jpg" ++ ".temp" : String) = "g/a.jpg.temp" := by decide
  constructor
  · simp only [compress_image, hfi, hdec, Option.getD_none]
    rw [if_neg hbig, if_neg (by simp [hpng]), heq]
    dsimp only
    rw [if_neg (by rw [hwo]; exact Bool.false_ne_true)]
  · simp only [compress_image, hfi, hdec, Option.getD_none]
    rw [if_neg hbig, if_neg (by simp [hpng]), heq]
    dsimp only
    rw [if_neg (by rw [hwo]; exact Bool.false_ne_true)]
    dsimp only
    rw [← hjoin, htemp]
    rfl

/-- Claim C4: under the image-library facts that `Image.new`, `paste` and
`convert` produce artifacts of the stated mode and size, the color
normalization step composites every artifact that has an alpha channel or is
palette-indexed (RGBA, LA or P) onto a newly created opaque white RGB
background of the artifact's own dimensions (P first converted to RGBA, the
alpha channel used as paste mask exactly when the pasted image is RGBA), and
converts every other non-RGB artifact to plain RGB; the result always has mode
RGB — in particular no alpha channel — and the input's dimensions. -/
theorem c4_alpha_composite (c : Codec) (img : Artifact)
    (hnewMode : ∀ mo s col, (c.newImage mo s col).mode = mo)
    (hnewW : ∀ mo s col, (c.newImage mo s col).width = s.1)
    (hnewH : ∀ mo s col, (c.newImage mo s col).height = s.2)
    (hpasteMode : ∀ bg i msk, (c.paste bg i msk).mode = bg.mode)
    (hpasteW : ∀ bg i msk, (c.paste bg i msk).width = bg.width)
    (hpasteH : ∀ bg i msk, (c.paste bg i msk).height = bg.height)
    (hconvMode : ∀ a mo, (c.convert a mo).mode = mo)
    (hconvW : ∀ a mo, (c.convert a mo).width = a.width)
    (hconvH : ∀ a mo, (c.convert a mo).height = a.height) :
    ((img.mode = Mode.RGBA ∨ img.mode = Mode.LA ∨ img.mode = Mode.P) →
      normalizeRGB c img =
        c.paste (c.newImage Mode.RGB (img.width, img.height) (255, 255, 255))
          (if img.mode = Mode.P then c.convert img Mode.RGBA else img)
          (if (if img.mode = Mode.P then c.convert img Mode.RGBA else img).mode = Mode.RGBA
            then some (c.alphaChannel (if img.mode = Mode.P then c.convert img Mode.RGBA else img))
            else none)) ∧
    (¬ (img.mode = Mode.RGBA ∨ img.mode = Mode.LA ∨ img.mode = Mode.P) →
      normalizeRGB c img = (if img.mode = Mode.RGB then img else c.convert img Mode.RGB)) ∧
    (normalizeRGB c img).mode = Mode.RGB ∧
    (normalizeRGB c img).hasAlpha = false ∧
    (normalizeRGB c img).width = img.width ∧
    (normalizeRGB c img).height = img.height := by
  have hm : (normalizeRGB c img).mode = Mode.RGB := by
    by_cases h : img.mode = Mode.RGBA ∨ img.mode = Mode.LA ∨ img.mode = Mode.P
    · simp only [normalizeRGB, if_pos h, hpasteMode, hnewMode]
    · simp only [normalizeRGB, if_neg h]
      by_cases h2 : img.mode = Mode.RGB
      · rw [if_neg (not_not_intro h2)]
        exact h2
      · rw [if_pos h2]
        exact hconvMode img Mode.RGB
  have hwidth : (normalizeRGB c img).width = img.width := by
    by_cases h : img.mode = Mode.RGBA ∨ img.mode = Mode.LA ∨ img.mode = Mode.P
    · simp only [normalizeRGB, if_pos h, hpasteW, hnewW]
    · simp only [normalizeRGB, if_neg h]
      by_cases h2 : img.mode = Mode.RGB
      · rw [if_neg (not_not_intro h2)]
      · rw [if_pos h2]
        exact hconvW img Mode.RGB
  have hheight : (normalizeRGB c img).height = img.height := by
    by_cases h : img.mode = Mode.RGBA ∨ img.mode = Mode.LA ∨ img.mode = Mode.P
    · simp only [normalizeRGB, if_pos h, hpasteH, hnewH]
    · simp only [normalizeRGB, if_neg h]
      by_cases h2 : img.mode = Mode.RGB
      · rw [if_neg (not_not_intro h2)]
      · rw [if_pos h2]
        exact hconvH img Mode.RGB
  refine ⟨fun h => by simp only [normalizeRGB, if_pos h], fun hn => ?_, hm, ?_, hwidth, hheight⟩
  · simp only [normalizeRGB, if_neg hn]
    by_cases h2 : img.mode = Mode.RGB
    · rw [if_neg (not_not_intro h2), if_pos h2]
    · rw [if_pos h2, if_neg h2]
  · simp [Artifact.hasAlpha, hm]

theorem c4_alpha_composite_witness :
    (∀ mo s col, (testCodec.newImage mo s col).mode = mo) ∧
    (∀ mo s col, (testCodec.newImage mo s col).width = s.1) ∧
    (∀ mo s col, (testCodec.newImage mo s col).height = s.2) ∧
    (∀ bg i msk, (testCodec.paste bg i msk).mode = bg.mode) ∧
    (∀ bg i msk, (testCodec.paste bg i msk).width = bg.width) ∧
    (∀ bg i msk, (testCodec.paste bg i msk).height = bg.height) ∧
    (∀ a mo, (testCodec.convert a mo).mode = mo) ∧
    (∀ a mo, (testCodec.convert a mo).width = a.width) ∧
    (∀ a mo, (testCodec.convert a mo).height = a.height) ∧
    (((rgbaImg.mode = Mode.RGBA ∨ rgbaImg.mode = Mode.LA ∨ rgbaImg.mode = Mode.P) →
      normalizeRGB testCodec rgbaImg =
        testCodec.paste
          (testCodec.newImage Mode.RGB (rgbaImg.width, rgbaImg.height) (255, 255, 255))
          (if rgbaImg.mode = Mode.P then testCodec.convert rgbaImg Mode.RGBA else rgbaImg)
          (if (if rgbaImg.mode = Mode.P then testCodec.convert rgbaImg Mode.RGBA
                else rgbaImg).mode = Mode.RGBA
            then some (testCodec.alphaChannel
              (if rgbaImg.mode = Mode.P then testCodec.convert rgbaImg Mode.RGBA else rgbaImg))
            else none)) ∧
    (¬ (rgbaImg.mode = Mode.RGBA ∨ rgbaImg.mode = Mode.LA ∨ rgbaImg.mode = Mode.P) →
      normalizeRGB testCodec rgbaImg =
        (if rgbaImg.mode = Mode.RGB then rgbaImg else testCodec.convert rgbaImg Mode.RGB)) ∧
    (normalizeRGB testCodec rgbaImg).mode = Mode.RGB ∧
    (normalizeRGB testCodec rgbaImg).hasAlpha = false ∧
    (normalizeRGB testCodec rgbaImg).width = rgbaImg.width ∧
    (normalizeRGB testCodec rgbaImg).height = rgbaImg.height) :=
  by
  refine ⟨?_, ?_, ?_, ?_, ?_, ?_, ?_, ?_, ?_,
    c4_alpha_composite testCodec rgbaImg ?_ ?_ ?_ ?_ ?_ ?_ ?_ ?_ ?_⟩ <;>
    intros <;> rfl

/-! ## Lemmas about mainProg -/

lemma mainProg_nodir (env : Sys) (fs : FS) (cfg : Config)
    (hdir : env.dirExists cfg.galleryDir = false) :
    mainProg env fs cfg = ⟨1, initState fs, none⟩ := by
  simp only [mainProg]
  rw [if_neg (by rw [hdir]; exact Bool.false_ne_true)]

lemma mainProg_empty (env : Sys) (fs : FS) (cfg : Config)
    (hdir : env.dirExists cfg.galleryDir = true)
    (hne : find_images env.walkOf cfg.galleryDir = []) :
    mainProg env fs cfg = ⟨1, initState fs, none⟩ := by
  simp only [mainProg, hdir, if_true]
  rw [if_pos hne]

lemma mainProg_run (env : Sys) (fs : FS) (cfg : Config)
    (hdir : env.dirExists cfg.galleryDir = true)
    (hne : find_images env.walkOf cfg.galleryDir ≠ [])
    (hcrash : (runLoop env cfg (initState fs) (find_images env.walkOf cfg.galleryDir)).2
      = false) :
    mainProg env fs cfg =
      ⟨0, (runLoop env cfg (initState fs) (find_images env.walkOf cfg.galleryDir)).1,
        if cfg.dryRun then none
        else if 0 < (runLoop env cfg (initState fs)
            (find_images env.walkOf cfg.galleryDir)).1.totalOriginal then
          some (total_compression
            (runLoop env cfg (initState fs)
              (find_images env.walkOf cfg.galleryDir)).1.totalCompressed
            (runLoop env cfg (initState fs)
              (find_images env.walkOf cfg.galleryDir)).1.totalOriginal)
        else none⟩ := by
  simp only [mainProg, hdir, if_true]
  rw [if_neg hne]
  rw [hcrash]
  simp only [Bool.false_eq_true, if_false]

/-- Claim C7: the program exits with a non-zero status exactly when the
gallery directory does not exist or no matching image file is found, and in
those two cases it exits before any file is modified (the filesystem equals
the initial one); otherwise — the directory exists and images were found — it
exits zero. -/
theorem c7_exit_codes (env : Sys) (fs : FS) (cfg : Config)
    (hex : ∀ p ∈ find_images env.walkOf cfg.galleryDir, (fs p).isSome = true)
    (hnd : (find_images env.walkOf cfg.galleryDir).Nodup)
    (hdisj : ∀ p ∈ find_images env.walkOf cfg.galleryDir,
      ∀ q2 ∈ find_images env.walkOf cfg.galleryDir, p ≠ q2 ++ ".temp") :
    ((mainProg env fs cfg).exitCode = 0 ↔
      (env.dirExists cfg.galleryDir = true ∧ find_images env.walkOf cfg.galleryDir ≠ [])) ∧
    ((env.dirExists cfg.galleryDir = false ∨ find_images env.walkOf cfg.galleryDir = []) →
      (mainProg env fs cfg).state.fs = fs) := by
  by_cases hdir : env.dirExists cfg.galleryDir = true
  · by_cases hne : find_images env.walkOf cfg.galleryDir = []
    · rw [mainProg_empty env fs cfg hdir hne]
      exact ⟨by simp [hne], fun _ => rfl⟩
    · have hcrash : (runLoop env cfg (initState fs)
          (find_images env.walkOf cfg.galleryDir)).2 = false := by
        cases hdry : cfg.dryRun with
        | true => exact (runLoop_dry env cfg hdry _ (initState fs) hex).1
        | false => exact (runLoop_nodry env cfg hdry _ (initState fs) hnd hex hdisj).1
      rw [mainProg_run env fs cfg hdir hne hcrash]
      refine ⟨by simp [hdir, hne], fun h => ?_⟩
      rcases h with h | h
      · rw [h] at hdir
        exact absurd hdir (by simp)
      · exact absurd h hne
  · have hdirf : env.dirExists cfg.galleryDir = false := by
      cases hd : env.dirExists cfg.galleryDir
      · rfl
      · exact absurd hd hdir
    rw [mainProg_nodir env fs cfg hdirf]
    exact ⟨by simp [hdirf], fun _ => rfl⟩

theorem c7_exit_codes_witness :
    (∀ p ∈ find_images testEnv.walkOf testCfg.galleryDir, (testFS p).isSome = true) ∧
    (find_images testEnv.walkOf testCfg.galleryDir).Nodup ∧
    (∀ p ∈ find_images testEnv.walkOf testCfg.galleryDir,
      ∀ q2 ∈ find_images testEnv.walkOf testCfg.galleryDir, p ≠ q2 ++ ".temp") ∧
    (((mainProg testEnv testFS testCfg).exitCode = 0 ↔
      (testEnv.dirExists testCfg.galleryDir = true ∧
        find_images testEnv.walkOf testCfg.galleryDir ≠ [])) ∧
    ((testEnv.dirExists testCfg.galleryDir = false ∨
        find_images testEnv.walkOf testCfg.galleryDir = []) →
      (mainProg testEnv testFS testCfg).state.fs = testFS)) :=
  ⟨by decide, by decide, by decide,
    c7_exit_codes testEnv testFS testCfg (by decide) (by decide) (by decide)⟩

/-- Claim C9: in dry-run mode the filesystem after the run equals the initial
one — no file is written, modified or removed — and, when the gallery exists
and images are found, the printed classification pairs each discovered file
with whether its size exceeds the target maximum ("needs compression" =
`true`, "already small enough" = `false`). -/
theorem c9_dry_run (env : Sys) (fs : FS) (cfg : Config)
    (hdry : cfg.dryRun = true)
    (hex : ∀ p ∈ find_images env.walkOf cfg.galleryDir, (fs p).isSome = true) :
    (mainProg env fs cfg).state.fs = fs ∧
    (env.dirExists cfg.galleryDir = true → find_images env.walkOf cfg.galleryDir ≠ [] →
      (mainProg env fs cfg).state.report =
        (find_images env.walkOf cfg.galleryDir).map
          (fun p => (p, decide ((sizeAt fs p : ℚ) > cfg.maxSize * 1024 * 1024)))) := by
  by_cases hdir : env.dirExists cfg.galleryDir = true
  · by_cases hne : find_images env.walkOf cfg.galleryDir = []
    · rw [mainProg_empty env fs cfg hdir hne]
      exact ⟨rfl, fun _ habs => absurd hne habs⟩
    · obtain ⟨hcr, hfs, hrep, _⟩ := runLoop_dry env cfg hdry _ (initState fs) hex
      rw [mainProg_run env fs cfg hdir hne hcr]
      refine ⟨hfs, fun _ _ => ?_⟩
      rw [hrep]
      simp [initState]
  · have hdirf : env.dirExists cfg.galleryDir = false := by
      cases hd : env.dirExists cfg.galleryDir
      · rfl
      · exact absurd hd hdir
    rw [mainProg_nodir env fs cfg hdirf]
    refine ⟨rfl, fun h _ => ?_⟩
    rw [h] at hdirf
    exact absurd hdirf (by simp)

theorem c9_dry_run_witness :
    testCfgDry.dryRun = true ∧
    (∀ p ∈ find_images testEnv.walkOf testCfgDry.galleryDir, (testFS p).isSome = true) ∧
    ((mainProg testEnv testFS testCfgDry).state.fs = testFS ∧
    (testEnv.dirExists testCfgDry.galleryDir = true →
      find_images testEnv.walkOf testCfgDry.galleryDir ≠ [] →
      (mainProg testEnv testFS testCfgDry).state.report =
        (find_images testEnv.walkOf testCfgDry.galleryDir).map
          (fun p => (p, decide ((sizeAt testFS p : ℚ) > testCfgDry.maxSize * 1024 * 1024))))) :=
  ⟨rfl, by decide, c9_dry_run testEnv testFS testCfgDry rfl (by decide)⟩

/-- Claim C10: in a completed non-dry run, there is one outcome per discovered
file such that the summary's total original size is the sum of every
discovered file's (initial) size, while the success count and the total
compressed size accumulate only over the successful outcomes — a failed file
contributes its original size and nothing to the compressed total (second and
third bullet: a failing `compress_image` adds only the original size, a
succeeding one also increments the success count and adds the re-read file
size) — and the printed overall percentage is `(1 - compressed/original)*100`
computed over this asymmetric pair of totals. -/
theorem c10_aggregation (env : Sys) (fs : FS) (cfg : Config)
    (hdry : cfg.dryRun = false)
    (hdir : env.dirExists cfg.galleryDir = true)
    (hne : find_images env.walkOf cfg.galleryDir ≠ [])
    (hex : ∀ p ∈ find_images env.walkOf cfg.galleryDir, (fs p).isSome = true)
    (hnd : (find_images env.walkOf cfg.galleryDir).Nodup)
    (hdisj : ∀ p ∈ find_images env.walkOf cfg.galleryDir,
      ∀ q2 ∈ find_images env.walkOf cfg.galleryDir, p ≠ q2 ++ ".temp") :
    (mainProg env fs cfg).exitCode = 0 ∧
    (∃ outs : List (Nat × Option Nat),
      outs.length = (find_images env.walkOf cfg.galleryDir).length ∧
      outs.map Prod.fst = (find_images env.walkOf cfg.galleryDir).map (sizeAt fs) ∧
      (mainProg env fs cfg).state.totalOriginal = (outs.map Prod.fst).sum ∧
      (mainProg env fs cfg).state.successCount =
        (outs.filter (fun o => o.2.isSome)).length ∧
      (mainProg env fs cfg).state.totalCompressed =
        (outs.map (fun o => o.2.getD 0)).sum) ∧
    (0 < (mainProg env fs cfg).state.totalOriginal →
      (mainProg env fs cfg).percent =
        some (total_compression (mainProg env fs cfg).state.totalCompressed
          (mainProg env fs cfg).state.totalOriginal)) ∧
    (∀ st p sz, getsize st.fs p = some sz →
      (compress_image env st.fs p none cfg.quality cfg.maxSize).2 = false →
      processOne env cfg st p = some { st with
        fs := (compress_image env st.fs p none cfg.quality cfg.maxSize).1
        totalOriginal := st.totalOriginal + sz }) ∧
    (∀ st p sz c, getsize st.fs p = some sz →
      (compress_image env st.fs p none cfg.quality cfg.maxSize).2 = true →
      getsize (compress_image env st.fs p none cfg.quality cfg.maxSize).1 p = some c →
      processOne env cfg st p = some { st with
        fs := (compress_image env st.fs p none cfg.quality cfg.maxSize).1
        successCount := st.successCount + 1
        totalOriginal := st.totalOriginal + sz
        totalCompressed := st.totalCompressed + c }) := by
  obtain ⟨hcr, outs, hlen, hfst, htot, hsucc, hcomp⟩ :=
    runLoop_nodry env cfg hdry _ (initState fs) hnd hex hdisj
  rw [mainProg_run env fs cfg hdir hne hcr]
  refine ⟨rfl, ⟨outs, hlen, hfst, by rw [htot]; simp [initState],
    by rw [hsucc]; simp [initState], by rw [hcomp]; simp [initState]⟩,
    fun hpos => ?_, ?_, ?_⟩
  · rw [if_neg (by rw [hdry]; exact Bool.false_ne_true), if_pos hpos]
  · exact fun st p sz hg hr => processOne_fail env cfg st p sz hdry hg hr
  · exact fun st p sz c hg hr hc => processOne_succeed env cfg st p sz c hdry hg hr hc

theorem c10_aggregation_witness :
    testCfgTight.dryRun = false ∧
    testEnv.dirExists testCfgTight.galleryDir = true ∧
    find_images testEnv.walkOf testCfgTight.galleryDir ≠ [] ∧
    (∀ p ∈ find_images testEnv.walkOf testCfgTight.galleryDir, (testFS p).isSome = true) ∧
    (find_images testEnv.walkOf testCfgTight.galleryDir).Nodup ∧
    (∀ p ∈ find_images testEnv.walkOf testCfgTight.galleryDir,
      ∀ q2 ∈ find_images testEnv.walkOf testCfgTight.galleryDir, p ≠ q2 ++ ".temp") ∧
    ((mainProg testEnv testFS testCfgTight).exitCode = 0 ∧
    (∃ outs : List (Nat × Option Nat),
      outs.length = (find_images testEnv.walkOf testCfgTight.galleryDir).length ∧
      outs.map Prod.fst =
        (find_images testEnv.walkOf testCfgTight.galleryDir).map (sizeAt testFS) ∧
      (mainProg testEnv testFS testCfgTight).state.totalOriginal =
        (outs.map Prod.fst).sum ∧
      (mainProg testEnv testFS testCfgTight).state.successCount =
        (outs.filter (fun o => o.2.isSome)).length ∧
      (mainProg testEnv testFS testCfgTight).state.totalCompressed =
        (outs.map (fun o => o.2.getD 0)).sum) ∧
    (0 < (mainProg testEnv testFS testCfgTight).state.totalOriginal →
      (mainProg testEnv testFS testCfgTight).percent =
        some (total_compression (mainProg testEnv testFS testCfgTight).state.totalCompressed
          (mainProg testEnv testFS testCfgTight).state.totalOriginal)) ∧
    (∀ st p sz, getsize st.fs p = some sz →
      (compress_image testEnv st.fs p none testCfgTight.quality testCfgTight.maxSize).2
          = false →
      processOne testEnv testCfgTight st p = some { st with
        fs := (compress_image testEnv st.fs p none testCfgTight.quality
          testCfgTight.maxSize).1
        totalOriginal := st.totalOriginal + sz }) ∧
    (∀ st p sz c, getsize st.fs p = some sz →
      (compress_image testEnv st.fs p none testCfgTight.quality testCfgTight.maxSize).2
          = true →
      getsize (compress_image testEnv st.fs p none testCfgTight.quality
          testCfgTight.maxSize).1 p = some c →
      processOne testEnv testCfgTight st p = some { st with
        fs := (compress_image testEnv st.fs p none testCfgTight.quality
          testCfgTight.maxSize).1
        successCount := st.successCount + 1
        totalOriginal := st.totalOriginal + sz
        totalCompressed := st.totalCompressed + c })) :=
  ⟨rfl, rfl, by decide, by decide, by decide, by decide,
    c10_aggregation testEnv testFS testCfgTight rfl rfl (by decide) (by decide) (by decide)
      (by decide)⟩
